import Mathlib

/-!
Shallow embedding of the playback engine and queue/session state machine of
`src/index.tsx` (the `PlayerProvider` component): the data model, the
Fisher-Yates shuffle, the recently-played history, and the operations
`playSong`, `playNext`, `playPrevious`, `togglePlayPause`, `toggleShuffle`,
`toggleRepeat` and the `ended` handler, together with the trace of commands
they issue to the single underlying audio element.

Modelling conventions: JS arrays are Lean lists; `Math.random()` is an
injected randomness source `r : Nat → Nat` (at a step with `currentIndex = n`
the code draws `Math.floor(Math.random() * n)`, a value in `[0, n)`, which we
model as `r n % n`, covering every possible outcome); a song's `file` handle
is abstracted to the boolean `hasFile`; React's batched `setX` updates within
one event handler are modelled as a single state-record update, reading the
pre-event values exactly where the source closures do.
-/

namespace DarkX

/-- A track.  `id` is the unique track id (`Date.now()` at import time),
`title` stands in for the remaining display metadata, and `hasFile` records
whether the object carries a live `file` handle (in-session imports do;
entries restored from `localStorage` had their `file` stripped and do not). -/
structure Song where
  id : Nat
  title : String
  hasFile : Bool
deriving DecidableEq, Repr, Inhabited

/-- The `repeatMode` state field: the string values "off", "all", "one". -/
inductive RepeatMode where
  | off
  | all
  | one
deriving DecidableEq, Repr

/-- Commands issued to the audio element (`audioRef.current`): `setSource i`
models assigning `audioRef.current.src` for the song with id `i`; `play` and
`pause` model the corresponding element calls. -/
inductive DeviceCmd where
  | setSource (songId : Nat)
  | play
  | pause
deriving DecidableEq, Repr

/-- The player session state: the `useState` fields of `PlayerProvider`
relevant to playback logic, plus the `songs` library prop (the imported
songs list owned by `AppWrapper`, read by `playSong` for resolution). -/
structure PState where
  currentSong : Option Song
  isPlaying : Bool
  currentQueue : List Song
  shuffledQueue : List Song
  isShuffleActive : Bool
  repeatMode : RepeatMode
  recentlyPlayed : List Song
  songs : List Song
deriving DecidableEq, Repr

/-- One in-place swap `[arr[i], arr[j]] = [arr[j], arr[i]]` on a list; if
either index is out of range the list is unchanged (never happens in the
shuffle loop, where both indices are in range). -/
def listSwap (l : List α) (i j : Nat) : List α :=
  match l[i]?, l[j]? with
  | some a, some b => (l.set i b).set j a
  | _, _ => l

/-- The body of `shuffleArray`'s `while` loop, indexed by the value of
`currentIndex` (which starts at `array.length` and decreases to `0`): with
`currentIndex = n + 1` the code draws `randomIndex ∈ [0, n + 1)` (modelled
`r (n + 1) % (n + 1)`), decrements `currentIndex` to `n`, and swaps
positions `n` and `randomIndex`. -/
def fisherYates (r : Nat → Nat) : Nat → List α → List α
  | 0, l => l
  | n + 1, l => fisherYates r n (listSwap l n (r (n + 1) % (n + 1)))

/-- The function `shuffleArray` (src/index.tsx lines 137-145): in-place Fisher-Yates
shuffle driven by `Math.random`, modelled by the injected source `r`. -/
def shuffleArray (r : Nat → Nat) (l : List α) : List α :=
  fisherYates r l.length l

/-- The shuffled-queue construction `[anchor, ...shuffleArray(queue.filter(s
=> s.id !== anchor.id))]`, inlined identically at its two call sites
(`playSong` lines 258-259 and `toggleShuffle` lines 335-336); named
`buildShuffledQueue` after the spec's section 4.2. -/
def buildShuffledQueue (r : Nat → Nat) (queue : List Song) (anchor : Song) : List Song :=
  anchor :: shuffleArray r (queue.filter (fun t => t.id != anchor.id))

/-- JS `Array.prototype.findIndex`, with `none` standing for `-1`. -/
def findIndex (p : α → Bool) : List α → Option Nat
  | [] => none
  | a :: l => if p a then some 0 else (findIndex p l).map (· + 1)

/-- Track resolution in `playSong` (line 263):
`songToPlay.file ? songToPlay : songs.find(s => s.id === songToPlay.id)`. -/
def resolveSong (songs : List Song) (songToPlay : Song) : Option Song :=
  if songToPlay.hasFile then some songToPlay
  else songs.find? (fun t => t.id == songToPlay.id)

/-- The operation `togglePlayPause` (lines 319-327): no-op without a current song; else
inverts `isPlaying` and issues the matching pause/play device call. -/
def togglePlayPause (s : PState) : PState × List DeviceCmd :=
  match s.currentSong with
  | none => (s, [])
  | some _ =>
    ({ s with isPlaying := !s.isPlaying },
     [if s.isPlaying then DeviceCmd.pause else DeviceCmd.play])

/-- The operation `playSong` (lines 254-285).  If a queue argument is given it replaces
`currentQueue`, and when shuffle is active the shuffled queue is rebuilt
anchored at `songToPlay` - both before track resolution.  A track that fails
resolution (no `file` and no library match) is evicted from history and the
operation aborts with no device command.  Resolving to the already-current
song delegates to `togglePlayPause`; otherwise the song becomes current, the
device gets `setSource` and `play`, and `isPlaying` is set.  In every
non-aborting case the resolved song is promoted to the front of the
deduplicated, 50-capped history. -/
def playSong (r : Nat → Nat) (songToPlay : Song) (queue : Option (List Song)) (s : PState) :
    PState × List DeviceCmd :=
  let s1 :=
    match queue with
    | none => s
    | some q =>
      if s.isShuffleActive then
        { s with currentQueue := q, shuffledQueue := buildShuffledQueue r q songToPlay }
      else
        { s with currentQueue := q }
  match resolveSong s1.songs songToPlay with
  | none =>
    ({ s1 with recentlyPlayed := s1.recentlyPlayed.filter (fun t => t.id != songToPlay.id) }, [])
  | some song =>
    let step2 :=
      match s1.currentSong with
      | some cur =>
        if cur.id = song.id then
          togglePlayPause s1
        else
          ({ s1 with currentSong := some song, isPlaying := true },
           [DeviceCmd.setSource song.id, DeviceCmd.play])
      | none =>
        ({ s1 with currentSong := some song, isPlaying := true },
         [DeviceCmd.setSource song.id, DeviceCmd.play])
    ({ step2.1 with
        recentlyPlayed :=
          (song :: step2.1.recentlyPlayed.filter (fun t => t.id != song.id)).take 50 },
     step2.2)

/-- The active queue: `isShuffleActive ? shuffledQueue : currentQueue`. -/
def activeQueue (s : PState) : List Song :=
  if s.isShuffleActive then s.shuffledQueue else s.currentQueue

/-- The three control-flow outcomes of `playNext` (lines 287-305): early
`return` leaving the state untouched, the stop branch, or advancing to a
target track passed on to `playSong`. -/
inductive NextStep where
  | noop
  | stop
  | advance (t : Song)
deriving DecidableEq, Repr

/-- The selection logic of `playNext` (lines 288-303): guards, index of the
current song in the active queue, increment, and the end-of-queue check
against `repeatMode === 'all'`. -/
def computeNext (s : PState) : NextStep :=
  match s.currentSong with
  | none => NextStep.noop
  | some cur =>
    let aq := activeQueue s
    if aq.length = 0 then NextStep.noop
    else
      match findIndex (fun t => t.id == cur.id) aq with
      | none => NextStep.noop
      | some currentIndex =>
        if currentIndex + 1 ≥ aq.length then
          if s.repeatMode = RepeatMode.all then
            match aq[0]? with
            | some t => NextStep.advance t
            | none => NextStep.noop
          else NextStep.stop
        else
          match aq[currentIndex + 1]? with
          | some t => NextStep.advance t
          | none => NextStep.noop

/-- The operation `playNext` (lines 287-305): a no-op on the guard/not-found returns, sets
`isPlaying = false` on the stop branch, and otherwise calls
`playSong(activeQueue[nextIndex], currentQueue)`. -/
def playNext (r : Nat → Nat) (s : PState) : PState × List DeviceCmd :=
  match computeNext s with
  | NextStep.noop => (s, [])
  | NextStep.stop => ({ s with isPlaying := false }, [])
  | NextStep.advance t => playSong r t (some s.currentQueue) s

/-- The selection logic of `playPrevious` (lines 308-315): guards, index of
the current song, and the circular `(currentIndex - 1 + length) % length`
computed in JS number arithmetic (modelled over `Int`). -/
def computePrevious (s : PState) : Option Song :=
  match s.currentSong with
  | none => none
  | some cur =>
    let aq := activeQueue s
    if aq.length = 0 then none
    else
      match findIndex (fun t => t.id == cur.id) aq with
      | none => none
      | some currentIndex =>
        let prevIndex := (((currentIndex : Int) - 1 + aq.length) % aq.length).toNat
        aq[prevIndex]?

/-- The operation `playPrevious` (lines 307-317): a no-op on the guard/not-found returns,
otherwise `playSong(activeQueue[prevIndex], currentQueue)`. -/
def playPrevious (r : Nat → Nat) (s : PState) : PState × List DeviceCmd :=
  match computePrevious s with
  | none => (s, [])
  | some t => playSong r t (some s.currentQueue) s

/-- The operation `toggleShuffle` (lines 329-342): flips the flag; turning shuffle on with
a current song rebuilds the shuffled queue anchored at it, every other case
(turning on without a current song included) sets the shuffled queue to
empty. -/
def toggleShuffle (r : Nat → Nat) (s : PState) : PState :=
  let newShuffleState := !s.isShuffleActive
  if newShuffleState then
    match s.currentSong with
    | some cur =>
      { s with isShuffleActive := newShuffleState,
               shuffledQueue := buildShuffledQueue r s.currentQueue cur }
    | none => { s with isShuffleActive := newShuffleState, shuffledQueue := [] }
  else
    { s with isShuffleActive := newShuffleState, shuffledQueue := [] }

/-- The operation `toggleRepeat` (lines 344-349): cycles off, all, one, off. -/
def toggleRepeat (s : PState) : PState :=
  { s with repeatMode :=
      match s.repeatMode with
      | RepeatMode.off => RepeatMode.all
      | RepeatMode.all => RepeatMode.one
      | RepeatMode.one => RepeatMode.off }

/-- The handler `handleEnded` (lines 196-203): with `repeatMode === 'one'` the audio
element is rewound and replayed (state unchanged, a `play` device call);
otherwise it delegates to `playNext`. -/
def handleEnded (r : Nat → Nat) (s : PState) : PState × List DeviceCmd :=
  if s.repeatMode = RepeatMode.one then (s, [DeviceCmd.play])
  else playNext r s

/-- The initial session state: all `useState` defaults of `PlayerProvider`,
with `recentlyPlayed` loaded from `localStorage` (entries stripped of their
`file` handle) and an empty imported-songs library. -/
def initState (hist : List Song) : PState :=
  { currentSong := none
    isPlaying := false
    currentQueue := []
    shuffledQueue := []
    isShuffleActive := false
    repeatMode := RepeatMode.off
    recentlyPlayed := hist
    songs := [] }

/-- One user- or device-initiated event, as the repository can actually issue
it: `playSong` is only ever invoked from the Songs page (`playSong(song,
songs)`) or the Home page (`playSong(song, recentlyPlayed)`), always with a
member of the clicked list and that list as the queue; next / previous /
play-pause / shuffle / repeat controls and the `ended` signal exist only
while a current song is loaded (full player and media session); importing a
song appends it, carrying a live file handle, to the library. -/
inductive Step : PState → PState → Prop where
  | play (s : PState) (r : Nat → Nat) (song : Song) (queue : List Song)
      (hq : queue = s.songs ∨ queue = s.recentlyPlayed) (hmem : song ∈ queue) :
      Step s (playSong r song (some queue) s).1
  | next (s : PState) (r : Nat → Nat) (h : s.currentSong.isSome = true) :
      Step s (playNext r s).1
  | prev (s : PState) (r : Nat → Nat) (h : s.currentSong.isSome = true) :
      Step s (playPrevious r s).1
  | toggle (s : PState) (h : s.currentSong.isSome = true) :
      Step s (togglePlayPause s).1
  | shuffle (s : PState) (r : Nat → Nat) (h : s.currentSong.isSome = true) :
      Step s (toggleShuffle r s)
  | cycleRepeat (s : PState) (h : s.currentSong.isSome = true) :
      Step s (toggleRepeat s)
  | ended (s : PState) (r : Nat → Nat) (h : s.currentSong.isSome = true) :
      Step s (handleEnded r s).1
  | addSong (s : PState) (song : Song) (hf : song.hasFile = true) :
      Step s { s with songs := s.songs ++ [song] }

/-- Session states reachable from a fresh application start (history loaded
from storage consists of file-less entries). -/
inductive Reachable : PState → Prop where
  | init (hist : List Song) (hh : ∀ t ∈ hist, t.hasFile = false) :
      Reachable (initState hist)
  | step {s s' : PState} : Reachable s → Step s s' → Reachable s'

/-- Same events as `Step`, but every (direct or delegated) `playSong`
invocation is required to resolve its track - i.e. no step aborts with a
stale-track error. -/
inductive StepOK : PState → PState → Prop where
  | play (s : PState) (r : Nat → Nat) (song : Song) (queue : List Song)
      (hq : queue = s.songs ∨ queue = s.recentlyPlayed) (hmem : song ∈ queue)
      (hres : (resolveSong s.songs song).isSome = true) :
      StepOK s (playSong r song (some queue) s).1
  | next (s : PState) (r : Nat → Nat) (h : s.currentSong.isSome = true)
      (hres : ∀ t, computeNext s = NextStep.advance t → (resolveSong s.songs t).isSome = true) :
      StepOK s (playNext r s).1
  | prev (s : PState) (r : Nat → Nat) (h : s.currentSong.isSome = true)
      (hres : ∀ t, computePrevious s = some t → (resolveSong s.songs t).isSome = true) :
      StepOK s (playPrevious r s).1
  | toggle (s : PState) (h : s.currentSong.isSome = true) :
      StepOK s (togglePlayPause s).1
  | shuffle (s : PState) (r : Nat → Nat) (h : s.currentSong.isSome = true) :
      StepOK s (toggleShuffle r s)
  | cycleRepeat (s : PState) (h : s.currentSong.isSome = true) :
      StepOK s (toggleRepeat s)
  | ended (s : PState) (r : Nat → Nat) (h : s.currentSong.isSome = true)
      (hres : ∀ t, computeNext s = NextStep.advance t → (resolveSong s.songs t).isSome = true) :
      StepOK s (handleEnded r s).1
  | addSong (s : PState) (song : Song) (hf : song.hasFile = true) :
      StepOK s { s with songs := s.songs ++ [song] }

/-- Reachability along stale-free steps only. -/
inductive ReachableOK : PState → Prop where
  | init (hist : List Song) (hh : ∀ t ∈ hist, t.hasFile = false) :
      ReachableOK (initState hist)
  | step {s s' : PState} : ReachableOK s → StepOK s s' → ReachableOK s'

/-- The shuffle-anchoring invariant of spec section 3: while shuffle is
active and a track is current, the shuffled queue starts with the current
track (track identity is by `id`, as the data model prescribes). -/
def ShuffleAnchored (s : PState) : Prop :=
  s.isShuffleActive = true → ∀ x, s.currentSong = some x →
    ∃ h, s.shuffledQueue.head? = some h ∧ h.id = x.id

/-- A live imported song used by concrete scenarios. -/
def songA : Song := ⟨1, "A", true⟩

/-- A second live imported song used by concrete scenarios. -/
def songB : Song := ⟨3, "B", true⟩

/-- A stale history entry (no live file handle) used by concrete scenarios. -/
def songS : Song := ⟨2, "S", false⟩

/-- A concrete randomness outcome (always drawing index 0). -/
def rand0 : Nat → Nat := fun _ => 0

/-- State after importing `songA` into a session restored with `songS` in
history. -/
def c1s1 : PState := ⟨none, false, [], [], false, RepeatMode.off, [songS], [songA]⟩

/-- State after then playing `songA` from the Songs list. -/
def c1s2 : PState :=
  ⟨some songA, true, [songA], [], false, RepeatMode.off, [songA, songS], [songA]⟩

/-- State after then toggling shuffle on. -/
def c1s3 : PState :=
  ⟨some songA, true, [songA], [songA], true, RepeatMode.off, [songA, songS], [songA]⟩

/-- State after then tapping the stale `songS` on the Home list: the play
aborts, but the queues were already replaced, leaving the shuffled queue
anchored at `songS` while `songA` is still current. -/
def c1s4 : PState :=
  ⟨some songA, true, [songA, songS], [songS, songA], true, RepeatMode.off, [songA], [songA]⟩

/-- Stale-free trace: state after importing `songA` into a fresh session. -/
def c1w1 : PState := ⟨none, false, [], [], false, RepeatMode.off, [], [songA]⟩

/-- Stale-free trace: state after then playing `songA`. -/
def c1w2 : PState := ⟨some songA, true, [songA], [], false, RepeatMode.off, [songA], [songA]⟩

/-- Stale-free trace: state after then toggling shuffle on. -/
def c1w3 : PState :=
  ⟨some songA, true, [songA], [songA], true, RepeatMode.off, [songA], [songA]⟩

/-- Singleton queue, repeat "all", playing: the wrap target is the current
song itself, so `playNext` delegates to the pause toggle. -/
def c2cex : PState := ⟨some songA, true, [songA], [], false, RepeatMode.all, [songA], [songA]⟩

/-- Two-song queue with the current song at the last index, repeat "all". -/
def c2wst : PState :=
  ⟨some songA, true, [songB, songA], [], false, RepeatMode.all, [songA], [songA, songB]⟩

/-- Session about to replay the stale `songS` from its history. -/
def c3wst : PState :=
  ⟨some songA, true, [songA], [], false, RepeatMode.off, [songS, songA], [songA]⟩

/-- Current song absent (by id) from the active queue while playing. -/
def c4cex : PState := ⟨some songA, true, [songB], [], false, RepeatMode.off, [songA], [songA]⟩

/-- Session whose history already contains the song about to be replayed. -/
def c5wst : PState :=
  ⟨some songA, true, [songA], [], false, RepeatMode.off, [songA, songB], [songA, songB]⟩

/-- Playing session whose current song is replayed from a list. -/
def c7wst : PState :=
  ⟨some songA, true, [songA, songB], [], false, RepeatMode.off, [songA], [songA, songB]⟩

/-- Current song at index 0 of a two-song queue. -/
def c8wst : PState :=
  ⟨some songA, true, [songA, songB], [], false, RepeatMode.off, [songA], [songA, songB]⟩

/-- Shuffle-active session about to play the stale `songS`. -/
def c9wst : PState :=
  ⟨some songA, true, [songA], [songA], true, RepeatMode.off, [songS, songA], [songA]⟩

/-- Shuffle-active two-song session with the current song at index 0. -/
def c10wst : PState :=
  ⟨some songA, true, [songA, songB], [songA, songB], true, RepeatMode.off, [songA],
   [songA, songB]⟩

/-! ### List helper lemmas for the shuffle permutation -/

theorem cons_set_perm : ∀ (t : List α) (k : Nat) (a b : α), t[k]? = some b →
    List.Perm (b :: t.set k a) (a :: t)
  | [], _, _, _, h => by simp at h
  | c :: t, 0, a, b, h => by
      simp only [List.getElem?_cons_zero, Option.some.injEq] at h
      rw [← h]
      simpa using List.Perm.swap a c t
  | c :: t, k + 1, a, b, h => by
      simp only [List.getElem?_cons_succ] at h
      have ih := cons_set_perm t k a b h
      simp only [List.set_cons_succ]
      exact (List.Perm.swap c b _).trans ((ih.cons c).trans (List.Perm.swap a c t))

theorem set_set_perm : ∀ (l : List α) (i j : Nat) (a b : α),
    l[i]? = some a → l[j]? = some b → List.Perm ((l.set i b).set j a) l
  | [], _, _, _, _, ha, _ => by simp at ha
  | c :: t, 0, 0, a, b, ha, _ => by
      simp only [List.getElem?_cons_zero, Option.some.injEq] at ha
      simp only [List.set_cons_zero, ← ha]
      exact List.Perm.refl _
  | c :: t, 0, m + 1, a, b, ha, hb => by
      simp only [List.getElem?_cons_zero, Option.some.injEq] at ha
      simp only [List.getElem?_cons_succ] at hb
      simp only [List.set_cons_zero, List.set_cons_succ]
      rw [ha]
      exact cons_set_perm t m a b hb
  | c :: t, k + 1, 0, a, b, ha, hb => by
      simp only [List.getElem?_cons_succ] at ha
      simp only [List.getElem?_cons_zero, Option.some.injEq] at hb
      simp only [List.set_cons_succ, List.set_cons_zero]
      rw [hb]
      exact cons_set_perm t k b a ha
  | c :: t, k + 1, m + 1, a, b, ha, hb => by
      simp only [List.getElem?_cons_succ] at ha hb
      simp only [List.set_cons_succ]
      exact (set_set_perm t k m a b ha hb).cons c

theorem listSwap_perm (l : List α) (i j : Nat) : List.Perm (listSwap l i j) l := by
  unfold listSwap
  split
  · next a b ha hb => exact set_set_perm l i j a b ha hb
  · exact List.Perm.refl l

theorem fisherYates_perm (r : Nat → Nat) :
    ∀ (n : Nat) (l : List α), List.Perm (fisherYates r n l) l
  | 0, l => List.Perm.refl l
  | n + 1, l => (fisherYates_perm r n _).trans (listSwap_perm l n _)

theorem shuffleArray_perm (r : Nat → Nat) (l : List α) : List.Perm (shuffleArray r l) l :=
  fisherYates_perm r l.length l

/-! ### findIndex and resolution helpers -/

theorem findIndex_some {p : α → Bool} : ∀ {l : List α} {i : Nat}, findIndex p l = some i →
    ∃ a, l[i]? = some a ∧ p a = true
  | [], _, h => by simp [findIndex] at h
  | a :: l, i, h => by
      simp only [findIndex] at h
      by_cases hp : p a = true
      · rw [if_pos hp] at h
        have h0 : (0 : Nat) = i := Option.some.inj h
        subst h0
        exact ⟨a, by simp, hp⟩
      · rw [if_neg hp, Option.map_eq_some'] at h
        obtain ⟨i', hi', rfl⟩ := h
        obtain ⟨b, hb, hpb⟩ := findIndex_some hi'
        exact ⟨b, by simpa using hb, hpb⟩

theorem findIndex_before {p : α → Bool} : ∀ {l : List α} {i : Nat}, findIndex p l = some i →
    ∀ j, j < i → ∀ a, l[j]? = some a → p a = false
  | [], _, h => by simp [findIndex] at h
  | a :: l, i, h => by
      simp only [findIndex] at h
      by_cases hp : p a = true
      · rw [if_pos hp] at h
        have h0 : (0 : Nat) = i := Option.some.inj h
        subst h0
        intro j hj
        exact fun b _ => absurd hj (Nat.not_lt_zero j)
      · rw [if_neg hp, Option.map_eq_some'] at h
        obtain ⟨i', hi', rfl⟩ := h
        intro j hj b hb
        cases j with
        | zero =>
            simp only [List.getElem?_cons_zero, Option.some.injEq] at hb
            rw [← hb]
            simpa using hp
        | succ j' =>
            simp only [List.getElem?_cons_succ] at hb
            exact findIndex_before hi' j' (by omega) b hb

theorem resolveSong_id {songs : List Song} {songToPlay y : Song}
    (h : resolveSong songs songToPlay = some y) : y.id = songToPlay.id := by
  unfold resolveSong at h
  split at h
  · rw [← Option.some.inj h]
  · have := List.find?_some h
    simpa using this

/-! ### Field-preservation helpers for the session operations -/

theorem playSong_stale_spec (r : Nat → Nat) (t : Song) (oq : Option (List Song)) (s : PState)
    (h : resolveSong s.songs t = none) :
    (playSong r t oq s).2 = [] ∧
    (playSong r t oq s).1.currentSong = s.currentSong ∧
    (playSong r t oq s).1.isPlaying = s.isPlaying ∧
    (playSong r t oq s).1.recentlyPlayed = s.recentlyPlayed.filter (fun u => u.id != t.id) ∧
    (playSong r t oq s).1.songs = s.songs := by
  unfold playSong
  cases oq with
  | none =>
    dsimp only
    rw [h]
    exact ⟨rfl, rfl, rfl, rfl, rfl⟩
  | some q =>
    by_cases hsh : s.isShuffleActive = true
    · dsimp only
      rw [if_pos hsh]
      dsimp only
      rw [h]
      exact ⟨rfl, rfl, rfl, rfl, rfl⟩
    · dsimp only
      rw [if_neg hsh]
      dsimp only
      rw [h]
      exact ⟨rfl, rfl, rfl, rfl, rfl⟩

theorem playSong_shuffle_on_queues (r : Nat → Nat) (t : Song) (q : List Song) (s : PState)
    (hsh : s.isShuffleActive = true) :
    (playSong r t (some q) s).1.shuffledQueue = buildShuffledQueue r q t ∧
    (playSong r t (some q) s).1.currentQueue = q := by
  unfold playSong
  dsimp only
  rw [if_pos hsh]
  dsimp only
  cases hres : resolveSong s.songs t with
  | none => exact ⟨rfl, rfl⟩
  | some y =>
    dsimp only
    cases hcur : s.currentSong with
    | none => exact ⟨rfl, rfl⟩
    | some cur =>
      dsimp only
      by_cases hid : cur.id = y.id
      · rw [if_pos hid]
        unfold togglePlayPause
        exact ⟨rfl, rfl⟩
      · rw [if_neg hid]
        exact ⟨rfl, rfl⟩

theorem playSong_resolved_recently (r : Nat → Nat) (t : Song) (oq : Option (List Song))
    (s : PState) (y : Song) (h : resolveSong s.songs t = some y) :
    (playSong r t oq s).1.recentlyPlayed
      = (y :: s.recentlyPlayed.filter (fun u => u.id != y.id)).take 50 := by
  unfold playSong
  cases oq with
  | none =>
    dsimp only
    rw [h]
    dsimp only
    cases hcur : s.currentSong with
    | none => rfl
    | some cur =>
      dsimp only
      by_cases hid : cur.id = y.id
      · rw [if_pos hid]
        unfold togglePlayPause
        rw [hcur]
      · rw [if_neg hid]
  | some q =>
    by_cases hsh : s.isShuffleActive = true
    · dsimp only
      rw [if_pos hsh]
      dsimp only
      rw [h]
      dsimp only
      cases hcur : s.currentSong with
      | none => rfl
      | some cur =>
        dsimp only
        by_cases hid : cur.id = y.id
        · rw [if_pos hid]
          unfold togglePlayPause
          rfl
        · rw [if_neg hid]
    · dsimp only
      rw [if_neg hsh]
      dsimp only
      rw [h]
      dsimp only
      cases hcur : s.currentSong with
      | none => rfl
      | some cur =>
        dsimp only
        by_cases hid : cur.id = y.id
        · rw [if_pos hid]
          unfold togglePlayPause
          rfl
        · rw [if_neg hid]

theorem playSong_resolved_toggle (r : Nat → Nat) (t : Song) (oq : Option (List Song))
    (s : PState) (y cur : Song) (h : resolveSong s.songs t = some y)
    (hcur : s.currentSong = some cur) (hid : cur.id = y.id) :
    (playSong r t oq s).1.currentSong = some cur ∧
    (playSong r t oq s).1.isPlaying = !s.isPlaying ∧
    (playSong r t oq s).2 = [if s.isPlaying then DeviceCmd.pause else DeviceCmd.play] := by
  unfold playSong
  cases oq with
  | none =>
    dsimp only
    rw [h]
    dsimp only
    rw [hcur]
    dsimp only
    rw [if_pos hid]
    unfold togglePlayPause
    rw [hcur]
    exact ⟨rfl, rfl, rfl⟩
  | some q =>
    by_cases hsh : s.isShuffleActive = true
    · dsimp only
      rw [if_pos hsh]
      dsimp only
      rw [h]
      dsimp only
      rw [hcur]
      dsimp only
      rw [if_pos hid]
      unfold togglePlayPause
      exact ⟨rfl, rfl, rfl⟩
    · dsimp only
      rw [if_neg hsh]
      dsimp only
      rw [h]
      dsimp only
      rw [hcur]
      dsimp only
      rw [if_pos hid]
      unfold togglePlayPause
      exact ⟨rfl, rfl, rfl⟩

theorem playSong_resolved_new (r : Nat → Nat) (t : Song) (oq : Option (List Song))
    (s : PState) (y : Song) (h : resolveSong s.songs t = some y)
    (hnew : ∀ cur, s.currentSong = some cur → cur.id ≠ y.id) :
    (playSong r t oq s).1.currentSong = some y ∧
    (playSong r t oq s).1.isPlaying = true ∧
    (playSong r t oq s).2 = [DeviceCmd.setSource y.id, DeviceCmd.play] := by
  unfold playSong
  cases oq with
  | none =>
    dsimp only
    rw [h]
    dsimp only
    cases hcur : s.currentSong with
    | none => exact ⟨rfl, rfl, rfl⟩
    | some cur =>
      dsimp only
      rw [if_neg (hnew cur hcur)]
      exact ⟨rfl, rfl, rfl⟩
  | some q =>
    by_cases hsh : s.isShuffleActive = true
    · dsimp only
      rw [if_pos hsh]
      dsimp only
      rw [h]
      dsimp only
      cases hcur : s.currentSong with
      | none => exact ⟨rfl, rfl, rfl⟩
      | some cur =>
        dsimp only
        rw [if_neg (hnew cur hcur)]
        exact ⟨rfl, rfl, rfl⟩
    · dsimp only
      rw [if_neg hsh]
      dsimp only
      rw [h]
      dsimp only
      cases hcur : s.currentSong with
      | none => exact ⟨rfl, rfl, rfl⟩
      | some cur =>
        dsimp only
        rw [if_neg (hnew cur hcur)]
        exact ⟨rfl, rfl, rfl⟩

theorem playSong_isShuffleActive (r : Nat → Nat) (t : Song) (oq : Option (List Song))
    (s : PState) : (playSong r t oq s).1.isShuffleActive = s.isShuffleActive := by
  unfold playSong
  cases oq with
  | none =>
    dsimp only
    cases hres : resolveSong s.songs t with
    | none => rfl
    | some y =>
      dsimp only
      cases hcur : s.currentSong with
      | none => rfl
      | some cur =>
        dsimp only
        by_cases hid : cur.id = y.id
        · rw [if_pos hid]; unfold togglePlayPause; rw [hcur]
        · rw [if_neg hid]
  | some q =>
    by_cases hsh : s.isShuffleActive = true
    · dsimp only
      rw [if_pos hsh]
      dsimp only
      cases hres : resolveSong s.songs t with
      | none => rfl
      | some y =>
        dsimp only
        cases hcur : s.currentSong with
        | none => rfl
        | some cur =>
          dsimp only
          by_cases hid : cur.id = y.id
          · rw [if_pos hid]; unfold togglePlayPause; rfl
          · rw [if_neg hid]
    · dsimp only
      rw [if_neg hsh]
      dsimp only
      cases hres : resolveSong s.songs t with
      | none => rfl
      | some y =>
        dsimp only
        cases hcur : s.currentSong with
        | none => rfl
        | some cur =>
          dsimp only
          by_cases hid : cur.id = y.id
          · rw [if_pos hid]; unfold togglePlayPause; rfl
          · rw [if_neg hid]

theorem playSong_shuffledQueue_off (r : Nat → Nat) (t : Song) (oq : Option (List Song))
    (s : PState) (hsh : s.isShuffleActive = false) :
    (playSong r t oq s).1.shuffledQueue = s.shuffledQueue := by
  unfold playSong
  cases oq with
  | none =>
    dsimp only
    cases hres : resolveSong s.songs t with
    | none => rfl
    | some y =>
      dsimp only
      cases hcur : s.currentSong with
      | none => rfl
      | some cur =>
        dsimp only
        by_cases hid : cur.id = y.id
        · rw [if_pos hid]; unfold togglePlayPause; rw [hcur]
        · rw [if_neg hid]
  | some q =>
    dsimp only
    rw [if_neg (by simp [hsh])]
    dsimp only
    cases hres : resolveSong s.songs t with
    | none => rfl
    | some y =>
      dsimp only
      cases hcur : s.currentSong with
      | none => rfl
      | some cur =>
        dsimp only
        by_cases hid : cur.id = y.id
        · rw [if_pos hid]; unfold togglePlayPause; rfl
        · rw [if_neg hid]

theorem togglePlayPause_fields (s : PState) :
    (togglePlayPause s).1.currentSong = s.currentSong ∧
    (togglePlayPause s).1.currentQueue = s.currentQueue ∧
    (togglePlayPause s).1.shuffledQueue = s.shuffledQueue ∧
    (togglePlayPause s).1.recentlyPlayed = s.recentlyPlayed ∧
    (togglePlayPause s).1.isShuffleActive = s.isShuffleActive ∧
    (togglePlayPause s).1.songs = s.songs := by
  unfold togglePlayPause
  split <;> simp

theorem playSong_currentQueue_some (r : Nat → Nat) (t : Song) (q : List Song) (s : PState) :
    (playSong r t (some q) s).1.currentQueue = q := by
  unfold playSong
  by_cases hsh : s.isShuffleActive = true
  · dsimp only
    rw [if_pos hsh]
    dsimp only
    cases hres : resolveSong s.songs t with
    | none => rfl
    | some y =>
      dsimp only
      cases hcur : s.currentSong with
      | none => rfl
      | some cur =>
        dsimp only
        by_cases hid : cur.id = y.id
        · rw [if_pos hid]; unfold togglePlayPause; rfl
        · rw [if_neg hid]
  · dsimp only
    rw [if_neg hsh]
    dsimp only
    cases hres : resolveSong s.songs t with
    | none => rfl
    | some y =>
      dsimp only
      cases hcur : s.currentSong with
      | none => rfl
      | some cur =>
        dsimp only
        by_cases hid : cur.id = y.id
        · rw [if_pos hid]; unfold togglePlayPause; rfl
        · rw [if_neg hid]

theorem length_filter_bne (n : Nat) : ∀ (q : List Song),
    (q.filter (fun t => t.id != n)).length + q.countP (fun t => t.id == n) = q.length
  | [] => rfl
  | t :: q => by
      have ih := length_filter_bne n q
      rw [List.filter_cons, List.countP_cons]
      by_cases h : t.id = n
      · rw [if_neg (by simp [h]), if_pos (by simp [h])]
        simp only [List.length_cons]
        omega
      · rw [if_pos (by simpa using h), if_neg (by simpa using h)]
        simp only [List.length_cons]
        omega

/-! ### Claim theorems -/

/-- C3: invoking play on a stale track (no live file handle and no library
entry with its id) removes the track's id from history, issues no command at
all to the audio device (in particular no setSource and no play), and leaves
the current track unchanged. -/
theorem c3_stale_play_aborts (r : Nat → Nat) (staleTrack : Song) (oq : Option (List Song))
    (s : PState) (hfile : staleTrack.hasFile = false)
    (hlib : s.songs.find? (fun t => t.id == staleTrack.id) = none) :
    (∀ u ∈ (playSong r staleTrack oq s).1.recentlyPlayed, u.id ≠ staleTrack.id) ∧
    (playSong r staleTrack oq s).2 = [] ∧
    (playSong r staleTrack oq s).1.currentSong = s.currentSong := by
  have hres : resolveSong s.songs staleTrack = none := by
    unfold resolveSong
    rw [if_neg (by simp [hfile])]
    exact hlib
  obtain ⟨h2, hcs, _, hrp, _⟩ := playSong_stale_spec r staleTrack oq s hres
  refine ⟨?_, h2, hcs⟩
  intro u hu
  rw [hrp] at hu
  have := List.mem_filter.mp hu
  simpa using this.2

/-- Witness for C3 at a concrete session: replaying the stale `songS` from
the Home list aborts as described. -/
theorem c3_stale_play_aborts_witness :
    songS.hasFile = false ∧
    c3wst.songs.find? (fun t => t.id == songS.id) = none ∧
    ((∀ u ∈ (playSong rand0 songS (some [songS, songA]) c3wst).1.recentlyPlayed,
        u.id ≠ songS.id) ∧
     (playSong rand0 songS (some [songS, songA]) c3wst).2 = [] ∧
     (playSong rand0 songS (some [songS, songA]) c3wst).1.currentSong = c3wst.currentSong) :=
  ⟨by decide, by decide,
   c3_stale_play_aborts rand0 songS (some [songS, songA]) c3wst (by decide) (by decide)⟩

/-- C9: play is not atomic on a stale-track abort - when invoked with an
originating queue, the queue has already been replaced (and, with shuffle
active, the shuffled queue rebuilt anchored at the stale track) before the
operation aborts, and these mutations persist while the current track stays
unchanged and no device command is issued. -/
theorem c9_stale_play_not_atomic (r : Nat → Nat) (staleTrack : Song) (oq : List Song)
    (s : PState) (hfile : staleTrack.hasFile = false)
    (hlib : s.songs.find? (fun t => t.id == staleTrack.id) = none) :
    (playSong r staleTrack (some oq) s).1.currentQueue = oq ∧
    (s.isShuffleActive = true →
      (playSong r staleTrack (some oq) s).1.shuffledQueue
        = buildShuffledQueue r oq staleTrack) ∧
    (playSong r staleTrack (some oq) s).1.currentSong = s.currentSong ∧
    (playSong r staleTrack (some oq) s).2 = [] := by
  have hres : resolveSong s.songs staleTrack = none := by
    unfold resolveSong
    rw [if_neg (by simp [hfile])]
    exact hlib
  obtain ⟨h2, hcs, _, _, _⟩ := playSong_stale_spec r staleTrack (some oq) s hres
  exact ⟨playSong_currentQueue_some r staleTrack oq s,
         fun hsh => (playSong_shuffle_on_queues r staleTrack oq s hsh).1, hcs, h2⟩

/-- Witness for C9 at a concrete shuffle-active session. -/
theorem c9_stale_play_not_atomic_witness :
    songS.hasFile = false ∧
    c9wst.songs.find? (fun t => t.id == songS.id) = none ∧
    ((playSong rand0 songS (some [songA, songS]) c9wst).1.currentQueue = [songA, songS] ∧
     (c9wst.isShuffleActive = true →
       (playSong rand0 songS (some [songA, songS]) c9wst).1.shuffledQueue
         = buildShuffledQueue rand0 [songA, songS] songS) ∧
     (playSong rand0 songS (some [songA, songS]) c9wst).1.currentSong = c9wst.currentSong ∧
     (playSong rand0 songS (some [songA, songS]) c9wst).2 = []) :=
  ⟨by decide, by decide,
   c9_stale_play_not_atomic rand0 songS [songA, songS] c9wst (by decide) (by decide)⟩

/-- C6: for every outcome of the randomness source, buildShuffledQueue puts
the anchor first, the remaining elements are a permutation of the queue
minus the anchor (all entries sharing the anchor's id), and when the
anchor's id occurs exactly once in the queue the result has the queue's
length. -/
theorem c6_buildShuffledQueue_spec (r : Nat → Nat) (q : List Song) (anchor : Song) :
    (buildShuffledQueue r q anchor).head? = some anchor ∧
    List.Perm (buildShuffledQueue r q anchor).tail
      (q.filter (fun t => t.id != anchor.id)) ∧
    (q.countP (fun t => t.id == anchor.id) = 1 →
      (buildShuffledQueue r q anchor).length = q.length) := by
  refine ⟨rfl, ?_, ?_⟩
  · exact shuffleArray_perm r (q.filter (fun t => t.id != anchor.id))
  · intro hcount
    have hperm := (shuffleArray_perm r (q.filter (fun t => t.id != anchor.id))).length_eq
    have hlen := length_filter_bne anchor.id q
    unfold buildShuffledQueue
    simp only [List.length_cons]
    omega

/-- Witness for C6 at a concrete queue and randomness outcome. -/
theorem c6_buildShuffledQueue_spec_witness :
    (buildShuffledQueue rand0 [songA, songB] songA).head? = some songA ∧
    List.Perm (buildShuffledQueue rand0 [songA, songB] songA).tail
      ([songA, songB].filter (fun t => t.id != songA.id)) ∧
    ([songA, songB].countP (fun t => t.id == songA.id) = 1 →
      (buildShuffledQueue rand0 [songA, songB] songA).length = [songA, songB].length) :=
  c6_buildShuffledQueue_spec rand0 [songA, songB] songA

/-- C8: with the current track at index 0 of the (nonempty) active queue,
playPrevious selects the last element of the active queue - the circular
wrap `(0 - 1 + length) % length` - and hands it to play with the plain
queue, for every repeat mode (the state `s` is arbitrary, so no constraint
on `repeatMode` is used). -/
theorem c8_previous_wraps_to_last (r : Nat → Nat) (s : PState) (cur : Song)
    (hc : s.currentSong = some cur) (hne : activeQueue s ≠ [])
    (hi : findIndex (fun t => t.id == cur.id) (activeQueue s) = some 0) :
    ∃ t, (activeQueue s).getLast? = some t ∧ computePrevious s = some t ∧
      playPrevious r s = playSong r t (some s.currentQueue) s := by
  have hlen : 1 ≤ (activeQueue s).length := List.length_pos.mpr hne
  have hcp : computePrevious s = (activeQueue s)[(activeQueue s).length - 1]? := by
    unfold computePrevious
    rw [hc]
    dsimp only
    rw [if_neg (by omega)]
    rw [hi]
    dsimp only
    simp only [Nat.cast_zero]
    have hmod : ((0 : Int) - 1 + (activeQueue s).length) % (activeQueue s).length
        = (activeQueue s).length - 1 := by
      have harg : (0 : Int) - 1 + (activeQueue s).length
          = ((activeQueue s).length : Int) - 1 := by ring
      rw [harg, Int.emod_eq_of_lt (by omega) (by omega)]
    rw [hmod]
    have htn : (((activeQueue s).length : Int) - 1).toNat = (activeQueue s).length - 1 := by
      omega
    rw [htn]
  obtain ⟨t, ht⟩ : ∃ t, (activeQueue s).getLast? = some t := by
    cases hq : activeQueue s with
    | nil => exact absurd hq hne
    | cons a l => exact ⟨_, List.getLast?_eq_getLast_of_ne_nil (by simp)⟩
  refine ⟨t, ht, ?_, ?_⟩
  · rw [hcp, ← List.getLast?_eq_getElem?, ht]
  · unfold playPrevious
    rw [hcp, ← List.getLast?_eq_getElem?, ht]

/-- Witness for C8 at a concrete two-song session. -/
theorem c8_previous_wraps_to_last_witness :
    c8wst.currentSong = some songA ∧
    (∃ t, (activeQueue c8wst).getLast? = some t ∧ computePrevious c8wst = some t ∧
      playPrevious rand0 c8wst = playSong rand0 t (some c8wst.currentQueue) c8wst) :=
  ⟨by decide,
   c8_previous_wraps_to_last rand0 c8wst songA (by decide) (by decide) (by decide)⟩

/-- C10: while shuffle is active, whenever playNext or playPrevious advances
to a track, it invokes play with that track and the plain queue as
originating queue, so the shuffled queue is rebuilt as the selected track
followed by a fresh shuffle of the plain queue minus that track (rather than
continuing through the existing shuffled order). -/
theorem c10_advance_rebuilds_shuffle (r : Nat → Nat) (s : PState)
    (hsh : s.isShuffleActive = true) :
    (∀ t, computeNext s = NextStep.advance t →
      playNext r s = playSong r t (some s.currentQueue) s ∧
      (playNext r s).1.shuffledQueue
        = t :: shuffleArray r (s.currentQueue.filter (fun u => u.id != t.id))) ∧
    (∀ t, computePrevious s = some t →
      playPrevious r s = playSong r t (some s.currentQueue) s ∧
      (playPrevious r s).1.shuffledQueue
        = t :: shuffleArray r (s.currentQueue.filter (fun u => u.id != t.id))) := by
  constructor
  · intro t ht
    have hpn : playNext r s = playSong r t (some s.currentQueue) s := by
      unfold playNext
      rw [ht]
    refine ⟨hpn, ?_⟩
    rw [hpn]
    exact (playSong_shuffle_on_queues r t s.currentQueue s hsh).1
  · intro t ht
    have hpp : playPrevious r s = playSong r t (some s.currentQueue) s := by
      unfold playPrevious
      rw [ht]
    refine ⟨hpp, ?_⟩
    rw [hpp]
    exact (playSong_shuffle_on_queues r t s.currentQueue s hsh).1

/-- Witness for C10 at a concrete shuffle-active session, exercising both
the next and the previous directions. -/
theorem c10_advance_rebuilds_shuffle_witness :
    (playNext rand0 c10wst).1.shuffledQueue
      = songB :: shuffleArray rand0 (c10wst.currentQueue.filter (fun u => u.id != songB.id)) ∧
    (playPrevious rand0 c10wst).1.shuffledQueue
      = songB :: shuffleArray rand0 (c10wst.currentQueue.filter (fun u => u.id != songB.id)) :=
  ⟨((c10_advance_rebuilds_shuffle rand0 c10wst (by decide)).1 songB (by decide)).2,
   ((c10_advance_rebuilds_shuffle rand0 c10wst (by decide)).2 songB (by decide)).2⟩

/-- C5: after a play whose track resolves, the history is capped at 50,
starts with the played (resolved) track, stays deduplicated by id, and a
replay of a track already present does not grow the history. -/
theorem c5_history_invariant (r : Nat → Nat) (t : Song) (oq : Option (List Song))
    (s : PState) (y : Song) (hres : resolveSong s.songs t = some y)
    (hdedup : s.recentlyPlayed.Pairwise (fun a b => a.id ≠ b.id)) :
    (playSong r t oq s).1.recentlyPlayed.length ≤ 50 ∧
    (playSong r t oq s).1.recentlyPlayed.head? = some y ∧
    (playSong r t oq s).1.recentlyPlayed.Pairwise (fun a b => a.id ≠ b.id) ∧
    ((∃ u ∈ s.recentlyPlayed, u.id = y.id) →
      (playSong r t oq s).1.recentlyPlayed.length ≤ s.recentlyPlayed.length) := by
  rw [playSong_resolved_recently r t oq s y hres]
  refine ⟨?_, rfl, ?_, ?_⟩
  · rw [List.length_take]
    omega
  · have hsub : ((y :: s.recentlyPlayed.filter (fun u => u.id != y.id)).take 50).Sublist
        (y :: s.recentlyPlayed.filter (fun u => u.id != y.id)) := List.take_sublist _ _
    have hbig : (y :: s.recentlyPlayed.filter (fun u => u.id != y.id)).Pairwise
        (fun a b => a.id ≠ b.id) := by
      rw [List.pairwise_cons]
      constructor
      · intro b hb
        have := (List.mem_filter.mp hb).2
        intro hcontra
        rw [hcontra] at this
        simp at this
      · exact hdedup.sublist (List.filter_sublist _)
    exact hbig.sublist hsub
  · rintro ⟨u, hu, huid⟩
    have hlt : (s.recentlyPlayed.filter (fun v => v.id != y.id)).length
        < s.recentlyPlayed.length := by
      refine List.length_filter_lt_length_iff_exists.mpr ⟨u, hu, ?_⟩
      simp [huid]
    rw [List.length_take]
    simp only [List.length_cons]
    omega

/-- Witness for C5: replaying `songB`, already present in history. -/
theorem c5_history_invariant_witness :
    resolveSong c5wst.songs songB = some songB ∧
    ((playSong rand0 songB (some [songA, songB]) c5wst).1.recentlyPlayed.length ≤ 50 ∧
     (playSong rand0 songB (some [songA, songB]) c5wst).1.recentlyPlayed.head? = some songB ∧
     (playSong rand0 songB (some [songA, songB]) c5wst).1.recentlyPlayed.Pairwise
       (fun a b => a.id ≠ b.id) ∧
     ((∃ u ∈ c5wst.recentlyPlayed, u.id = songB.id) →
       (playSong rand0 songB (some [songA, songB]) c5wst).1.recentlyPlayed.length
         ≤ c5wst.recentlyPlayed.length)) :=
  ⟨by decide,
   c5_history_invariant rand0 songB (some [songA, songB]) c5wst songB (by decide)
     (by decide)⟩

/-- C7: replaying the current track while playing pauses (isPlaying becomes
false), issues no setSource to the device, and leaves the history unchanged
(the track is already at index 0, the position it keeps). -/
theorem c7_replay_current_pauses (r : Nat → Nat) (oq : Option (List Song)) (s : PState)
    (x : Song) (rest : List Song) (hc : s.currentSong = some x) (hp : s.isPlaying = true)
    (hf : x.hasFile = true) (hh : s.recentlyPlayed = x :: rest)
    (hrest : ∀ u ∈ rest, u.id ≠ x.id) (hlen : s.recentlyPlayed.length ≤ 50) :
    (playSong r x oq s).1.isPlaying = false ∧
    (∀ i, DeviceCmd.setSource i ∉ (playSong r x oq s).2) ∧
    (playSong r x oq s).1.recentlyPlayed = s.recentlyPlayed := by
  have hres : resolveSong s.songs x = some x := by
    unfold resolveSong
    rw [if_pos hf]
  obtain ⟨hcs, hip, htr⟩ := playSong_resolved_toggle r x oq s x x hres hc rfl
  refine ⟨by rw [hip, hp]; rfl, ?_, ?_⟩
  · intro i
    rw [htr, hp]
    simp
  · rw [playSong_resolved_recently r x oq s x hres, hh]
    have hfil : (x :: rest).filter (fun u => u.id != x.id) = rest := by
      rw [List.filter_cons]
      rw [if_neg (by simp)]
      exact List.filter_eq_self.mpr (fun u hu => by simpa using hrest u hu)
    rw [hfil]
    exact List.take_of_length_le (by rw [hh] at hlen; simpa using hlen)

/-- Witness for C7 at a concrete playing session. -/
theorem c7_replay_current_pauses_witness :
    c7wst.isPlaying = true ∧
    ((playSong rand0 songA (some [songA, songB]) c7wst).1.isPlaying = false ∧
     (∀ i, DeviceCmd.setSource i ∉ (playSong rand0 songA (some [songA, songB]) c7wst).2) ∧
     (playSong rand0 songA (some [songA, songB]) c7wst).1.recentlyPlayed
       = c7wst.recentlyPlayed) :=
  ⟨by decide,
   c7_replay_current_pauses rand0 (some [songA, songB]) c7wst songA [] (by decide) (by decide)
     (by decide) (by decide) (by intro u hu; cases hu) (by decide)⟩

/-- Counterexample to C2 as stated: on the singleton queue `[songA]` with
repeat "all", the current track is at its last index, yet playNext leaves
`isPlaying = false` (the wrap target is the current track itself, so play
delegates to the pause toggle) instead of the claimed `isPlaying = true`. -/
theorem c2_playNext_counterexample :
    c2cex.repeatMode = RepeatMode.all ∧
    c2cex.currentSong = some songA ∧
    c2cex.isPlaying = true ∧
    findIndex (fun t => t.id == songA.id) (activeQueue c2cex)
      = some ((activeQueue c2cex).length - 1) ∧
    (playNext rand0 c2cex).1.currentSong = some songA ∧
    (playNext rand0 c2cex).1.isPlaying = false := by
  decide

/-- C2 (amended): with the current track at the last index of the active
queue, playNext under repeat off/one stops - `isPlaying := false` and
nothing else changes; under repeat "all", provided the queue has at least
two entries and its first element carries a live source, it wraps to the
queue's first element, which becomes current with `isPlaying = true`. -/
theorem c2_playNext_at_last (r : Nat → Nat) (s : PState) (cur : Song)
    (hc : s.currentSong = some cur)
    (hne : (activeQueue s).length ≠ 0)
    (hi : findIndex (fun t => t.id == cur.id) (activeQueue s)
      = some ((activeQueue s).length - 1))
    (hall : s.repeatMode = RepeatMode.all →
      2 ≤ (activeQueue s).length ∧
      ∃ f, (activeQueue s)[0]? = some f ∧ f.hasFile = true) :
    if s.repeatMode = RepeatMode.all then
      (playNext r s).1.currentSong = (activeQueue s)[0]? ∧ (playNext r s).1.isPlaying = true
    else
      playNext r s = ({ s with isPlaying := false }, []) := by
  have hcn : computeNext s = if s.repeatMode = RepeatMode.all then
      (match (activeQueue s)[0]? with
       | some t => NextStep.advance t
       | none => NextStep.noop)
    else NextStep.stop := by
    unfold computeNext
    rw [hc]
    dsimp only
    rw [if_neg hne, hi]
    dsimp only
    rw [if_pos (by omega)]
  by_cases hrm : s.repeatMode = RepeatMode.all
  · rw [if_pos hrm]
    obtain ⟨h2, f, hf0, hff⟩ := hall hrm
    have hcn2 : computeNext s = NextStep.advance f := by
      rw [hcn, if_pos hrm, hf0]
    have hpn : playNext r s = playSong r f (some s.currentQueue) s := by
      unfold playNext
      rw [hcn2]
    have hfne : f.id ≠ cur.id := by
      have hbefore := findIndex_before hi 0 (by omega) f hf0
      simpa using hbefore
    have hres : resolveSong s.songs f = some f := by
      unfold resolveSong
      rw [if_pos hff]
    have hnew : ∀ c, s.currentSong = some c → c.id ≠ f.id := by
      intro c hcs
      rw [hc] at hcs
      rw [← Option.some.inj hcs]
      exact hfne.symm
    obtain ⟨h1, hip, _⟩ := playSong_resolved_new r f (some s.currentQueue) s f hres hnew
    rw [hpn]
    exact ⟨by rw [h1, hf0], hip⟩
  · rw [if_neg hrm]
    have hcn2 : computeNext s = NextStep.stop := by
      rw [hcn, if_neg hrm]
    unfold playNext
    rw [hcn2]

/-- Witness for the amended C2 at a concrete two-song repeat-all session. -/
theorem c2_playNext_at_last_witness :
    (playNext rand0 c2wst).1.currentSong = (activeQueue c2wst)[0]? ∧
    (playNext rand0 c2wst).1.isPlaying = true := by
  have h := c2_playNext_at_last rand0 c2wst songA (by decide) (by decide) (by decide)
    (fun _ => ⟨by decide, songB, by decide, by decide⟩)
  rw [if_pos (by decide)] at h
  exact h

/-- Counterexample to C4 as stated: the current track is absent (by id) from
the active queue and the session is playing; playNext is claimed to set
`isPlaying = false`, but it returns before reaching that assignment, leaving
`isPlaying = true`. -/
theorem c4_playNext_counterexample :
    c4cex.currentSong = some songA ∧
    findIndex (fun t => t.id == songA.id) (activeQueue c4cex) = none ∧
    c4cex.isPlaying = true ∧
    (playNext rand0 c4cex).1.isPlaying ≠ false := by
  decide

/-- C4 (amended): when the current track is absent (by id) from the active
queue, playNext is a pure no-op - the whole state (currentTrack and
isPlaying included) is unchanged and no device command is issued; in
particular it does not set `isPlaying = false`. -/
theorem c4_playNext_absent_noop (r : Nat → Nat) (s : PState) (cur : Song)
    (hc : s.currentSong = some cur)
    (habsent : findIndex (fun t => t.id == cur.id) (activeQueue s) = none) :
    playNext r s = (s, []) := by
  have hcn : computeNext s = NextStep.noop := by
    unfold computeNext
    rw [hc]
    dsimp only
    by_cases hlen : (activeQueue s).length = 0
    · rw [if_pos hlen]
    · rw [if_neg hlen, habsent]
  unfold playNext
  rw [hcn]

/-- Witness for the amended C4 at the same concrete session as the
counterexample. -/
theorem c4_playNext_absent_noop_witness :
    playNext rand0 c4cex = (c4cex, []) :=
  c4_playNext_absent_noop rand0 c4cex songA (by decide) (by decide)

theorem anchored_playSong (r : Nat → Nat) (t : Song) (q : List Song) (s : PState)
    (hres : (resolveSong s.songs t).isSome = true) :
    ShuffleAnchored (playSong r t (some q) s).1 := by
  intro hsh' x hx
  have hshs : s.isShuffleActive = true := by
    have hpres := playSong_isShuffleActive r t (some q) s
    rw [hsh'] at hpres
    exact hpres.symm
  have hq := playSong_shuffle_on_queues r t q s hshs
  obtain ⟨y, hy⟩ := Option.isSome_iff_exists.mp hres
  refine ⟨t, by rw [hq.1]; rfl, ?_⟩
  cases hcur : s.currentSong with
  | none =>
    have hnew : ∀ c, s.currentSong = some c → c.id ≠ y.id := by
      intro c hcs
      rw [hcur] at hcs
      cases hcs
    have h1 := (playSong_resolved_new r t (some q) s y hy hnew).1
    rw [h1] at hx
    rw [← Option.some.inj hx]
    exact (resolveSong_id hy).symm
  | some cur =>
    by_cases hid : cur.id = y.id
    · have h1 := (playSong_resolved_toggle r t (some q) s y cur hy hcur hid).1
      rw [h1] at hx
      rw [← Option.some.inj hx]
      exact (hid.trans (resolveSong_id hy)).symm
    · have hnew : ∀ c, s.currentSong = some c → c.id ≠ y.id := by
        intro c hcs
        rw [hcur] at hcs
        rw [← Option.some.inj hcs]
        exact hid
      have h1 := (playSong_resolved_new r t (some q) s y hy hnew).1
      rw [h1] at hx
      rw [← Option.some.inj hx]
      exact (resolveSong_id hy).symm

theorem anchored_playNext (r : Nat → Nat) (s : PState)
    (hres : ∀ t, computeNext s = NextStep.advance t → (resolveSong s.songs t).isSome = true)
    (ih : ShuffleAnchored s) : ShuffleAnchored (playNext r s).1 := by
  cases hcn : computeNext s with
  | noop =>
    have he : (playNext r s).1 = s := by
      unfold playNext
      rw [hcn]
    rw [he]
    exact ih
  | stop =>
    have he : (playNext r s).1 = { s with isPlaying := false } := by
      unfold playNext
      rw [hcn]
    rw [he]
    intro hsh x hx
    exact ih hsh x hx
  | advance t =>
    have he : (playNext r s).1 = (playSong r t (some s.currentQueue) s).1 := by
      unfold playNext
      rw [hcn]
    rw [he]
    exact anchored_playSong r t s.currentQueue s (hres t hcn)

theorem anchored_playPrevious (r : Nat → Nat) (s : PState)
    (hres : ∀ t, computePrevious s = some t → (resolveSong s.songs t).isSome = true)
    (ih : ShuffleAnchored s) : ShuffleAnchored (playPrevious r s).1 := by
  cases hcp : computePrevious s with
  | none =>
    have he : (playPrevious r s).1 = s := by
      unfold playPrevious
      rw [hcp]
    rw [he]
    exact ih
  | some t =>
    have he : (playPrevious r s).1 = (playSong r t (some s.currentQueue) s).1 := by
      unfold playPrevious
      rw [hcp]
    rw [he]
    exact anchored_playSong r t s.currentQueue s (hres t hcp)

theorem anchored_toggleShuffle (r : Nat → Nat) (s : PState) :
    ShuffleAnchored (toggleShuffle r s) := by
  have hcases : toggleShuffle r s = { s with isShuffleActive := false, shuffledQueue := [] }
      ∨ (∃ cur, s.currentSong = some cur ∧
          toggleShuffle r s = { s with isShuffleActive := true, shuffledQueue := buildShuffledQueue r s.currentQueue cur })
      ∨ (s.currentSong = none ∧
          toggleShuffle r s = { s with isShuffleActive := true, shuffledQueue := [] }) := by
    unfold toggleShuffle
    cases hs : s.isShuffleActive with
    | true => left; simp [hs]
    | false =>
      cases hcur : s.currentSong with
      | some cur => right; left; exact ⟨cur, rfl, by simp [hs]⟩
      | none => right; right; exact ⟨rfl, by simp [hs]⟩
  rcases hcases with h | ⟨cur, hcur, h⟩ | ⟨hcur, h⟩
  · rw [h]
    intro hsh x hx
    simp at hsh
  · rw [h]
    intro hsh x hx
    refine ⟨cur, rfl, ?_⟩
    have hsx : some cur = some x := by
      rw [← hcur]
      exact hx
    rw [← Option.some.inj hsx]
  · rw [h]
    intro hsh x hx
    dsimp only at hx
    rw [hcur] at hx
    cases hx

/-- Counterexample to C1 as stated: `c1s4` is reachable (import `songA`,
play it from the Songs list, toggle shuffle on, then tap the stale `songS`
on the Home list), shuffle is active, `songA` is the current track, and yet
the shuffled queue's first element is `songS`, a different track: the
stale-track abort in play happens after the queues were already rebuilt. -/
theorem c1_shuffle_anchor_counterexample :
    Reachable c1s4 ∧ c1s4.isShuffleActive = true ∧ c1s4.currentSong = some songA ∧
    c1s4.shuffledQueue.head? = some songS ∧ songS.id ≠ songA.id := by
  refine ⟨?_, by decide, by decide, by decide, by decide⟩
  have h0 : Reachable (initState [songS]) := Reachable.init [songS] (by decide)
  have e1 : ({ initState [songS] with
      songs := (initState [songS]).songs ++ [songA] } : PState) = c1s1 := by decide
  have h1 : Reachable c1s1 :=
    e1 ▸ Reachable.step h0 (Step.addSong (initState [songS]) songA (by decide))
  have e2 : (playSong rand0 songA (some [songA]) c1s1).1 = c1s2 := by decide
  have h2 : Reachable c1s2 :=
    e2 ▸ Reachable.step h1
      (Step.play c1s1 rand0 songA [songA] (Or.inl (by decide)) (by decide))
  have e3 : toggleShuffle rand0 c1s2 = c1s3 := by decide
  have h3 : Reachable c1s3 := e3 ▸ Reachable.step h2 (Step.shuffle c1s2 rand0 (by decide))
  have e4 : (playSong rand0 songS (some [songA, songS]) c1s3).1 = c1s4 := by decide
  exact e4 ▸ Reachable.step h3
    (Step.play c1s3 rand0 songS [songA, songS] (Or.inr (by decide)) (by decide))

/-- C1 (amended): in every session state reached without a stale-track play
abort (every play, including those delegated from next/previous/ended,
resolves its track), whenever shuffle is active and a current track exists
the shuffled queue's first element is the current track (by track id, the
data model's identity); a play aborting on a stale track can instead leave
the shuffled queue anchored at the stale track. -/
theorem c1_shuffle_anchor_stale_free (s : PState) (h : ReachableOK s) : ShuffleAnchored s := by
  induction h with
  | init hist hh =>
    intro hsh x hx
    simp [initState] at hx
  | @step s0 s' hre hstep ih =>
    cases hstep with
    | play r0 song queue hq hmem hres => exact anchored_playSong r0 song queue s0 hres
    | next r0 hcs hres => exact anchored_playNext r0 s0 hres ih
    | prev r0 hcs hres => exact anchored_playPrevious r0 s0 hres ih
    | toggle hcs =>
      intro hsh x hx
      obtain ⟨h1, _, h3, _, h5, _⟩ := togglePlayPause_fields s0
      rw [h3]
      exact ih (by rw [← h5]; exact hsh) x (by rw [← h1]; exact hx)
    | shuffle r0 hcs => exact anchored_toggleShuffle r0 s0
    | cycleRepeat hcs =>
      intro hsh x hx
      exact ih hsh x hx
    | ended r0 hcs hres =>
      by_cases hone : s0.repeatMode = RepeatMode.one
      · have he : (handleEnded r0 s0).1 = s0 := by
          unfold handleEnded
          rw [if_pos hone]
        rw [he]
        exact ih
      · have he : (handleEnded r0 s0).1 = (playNext r0 s0).1 := by
          unfold handleEnded
          rw [if_neg hone]
        rw [he]
        exact anchored_playNext r0 s0 hres ih
    | addSong song hf =>
      intro hsh x hx
      exact ih hsh x hx

/-- Witness for the amended C1 along a concrete stale-free trace
(import `songA`, play it, toggle shuffle on). -/
theorem c1_shuffle_anchor_stale_free_witness :
    ∃ hd, c1w3.shuffledQueue.head? = some hd ∧ hd.id = songA.id := by
  have h0 : ReachableOK (initState []) := ReachableOK.init [] (by intro t ht; cases ht)
  have e1 : ({ initState [] with
      songs := (initState []).songs ++ [songA] } : PState) = c1w1 := by decide
  have h1 : ReachableOK c1w1 :=
    e1 ▸ ReachableOK.step h0 (StepOK.addSong (initState []) songA (by decide))
  have e2 : (playSong rand0 songA (some [songA]) c1w1).1 = c1w2 := by decide
  have h2 : ReachableOK c1w2 :=
    e2 ▸ ReachableOK.step h1
      (StepOK.play c1w1 rand0 songA [songA] (Or.inl (by decide)) (by decide) (by decide))
  have e3 : toggleShuffle rand0 c1w2 = c1w3 := by decide
  have h3 : ReachableOK c1w3 := e3 ▸ ReachableOK.step h2 (StepOK.shuffle c1w2 rand0 (by decide))
  exact c1_shuffle_anchor_stale_free c1w3 h3 (by decide) songA (by decide)

end DarkX
